import Mathlib

/-!
Verification of the RedditTracker series store and poll loop.

The Python module reddit_tracker_core.py is embedded shallowly:

* a Python dict from subreddit name to a list of data points is modelled
  as an insertion-ordered association list (Python dicts preserve
  insertion order and have pairwise distinct keys);
* Python str.lower is modelled characterwise for the basic latin range,
  matching the ASCII case mapping the code relies on;
* functions that can raise inside a try block return Option, with none
  standing for an uncaught Python exception at that point; the
  surrounding except handler is modelled by the caller of the body.
-/

namespace RedditTracker

/-- A recorded data point, the dict with fields timestamp and
online_users built at reddit_tracker_core.py lines 154-157 and
app.py lines 98-101. -/
structure Sample where
  timestamp : String
  online_users : Int
deriving DecidableEq

/-- A Store: the dict mapping subreddit names to lists of samples,
modelled as an insertion-ordered association list. -/
abbrev Store := List (String × List Sample)

/-- ASCII lower-casing of one character, the effect of Python str.lower
on the basic latin range (code points 65-90 map to 97-122). -/
def lowerChar (c : Char) : Char :=
  if 65 ≤ c.toNat ∧ c.toNat ≤ 90 then Char.ofNat (c.toNat + 32) else c

/-- Python str.lower, applied characterwise. -/
def lowerStr (s : String) : String :=
  String.mk (s.data.map lowerChar)

/-- Membership test on the modelled dict: the Python expression
k in d. -/
def hasKey : Store → String → Bool
  | [], _ => false
  | p :: rest, k => p.1 == k || hasKey rest k

/-- Indexing on the modelled dict: the Python expression d[k]; the code
only indexes keys it has inserted, so absent keys default to []. -/
def getSeries : Store → String → List Sample
  | [], _ => []
  | p :: rest, k => if p.1 == k then p.2 else getSeries rest k

/-- In-place extension of the entry at key k: the Python statements
d[k].extend(pts) and d[k].append(x). Keys in a Python dict are unique,
so only the first matching entry is changed. -/
def extendAt : Store → String → List Sample → Store
  | [], _, _ => []
  | p :: rest, k, pts =>
      if p.1 == k then (p.1, p.2 ++ pts) :: rest else p :: extendAt rest k pts

/-- One iteration of the loop in normalize_subreddit_names
(reddit_tracker_core.py lines 126-135): lower-case the key, create an
empty entry if absent, then extend it with the points. -/
def normStep (acc : Store) (p : String × List Sample) : Store :=
  let norm := lowerStr p.1
  let acc' := if hasKey acc norm then acc else acc ++ [(norm, [])]
  extendAt acc' norm p.2

/-- normalize_subreddit_names (reddit_tracker_core.py lines 116-137) on
dict input: fold the normalisation step over the entries in insertion
order, starting from the fresh dict of line 123. -/
def normalize_subreddit_names (d : Store) : Store :=
  d.foldl normStep []

/-- A record of the legacy flat-list on-disk format. Each field is
optional: Python dicts may lack any of them, item.get covers a missing
subreddit and indexing a missing field raises KeyError. -/
structure LegacyRecord where
  subreddit : Option String
  timestamp : Option String
  online_users : Option Int
deriving DecidableEq

/-- One iteration of the loop in migrate_data_format
(reddit_tracker_core.py lines 146-158): none models the KeyError raised
by item indexing when timestamp or online_users is missing. -/
def migStep (acc : Store) (item : LegacyRecord) : Option Store :=
  let sub := lowerStr (item.subreddit.getD "unknown")
  let acc' := if hasKey acc sub then acc else acc ++ [(sub, [])]
  match item.timestamp, item.online_users with
  | some t, some n => some (extendAt acc' sub [⟨t, n⟩])
  | _, _ => none

/-- migrate_data_format (reddit_tracker_core.py lines 139-160): groups
legacy records by lower-cased subreddit, dropping the per-record
subreddit field; none models the KeyError escaping the function. -/
def migrate_data_format (old_data : List LegacyRecord) : Option Store :=
  old_data.foldlM migStep []

/-- Parsed JSON value of the persisted file or of the data argument to
save: either the legacy flat list or the subreddit-keyed dict. -/
inductive PyData where
  | legacy (items : List LegacyRecord)
  | store (s : Store)
deriving DecidableEq

/-- Body of the try block of load_data_from_json
(reddit_tracker_core.py lines 201-229) as a function of the parsed file
contents; the input none is a missing file, the output none is an
uncaught exception inside the try block (the KeyError from migration). -/
def loadBody (file : Option PyData) : Option Store :=
  match file with
  | none => some []
  | some (.store d) => some (normalize_subreddit_names d)
  | some (.legacy items) =>
      (migrate_data_format items).map normalize_subreddit_names

/-- load_data_from_json (reddit_tracker_core.py lines 196-234): the
except handler at lines 230-234 catches every exception from the body
and returns the empty dict. -/
def load_data_from_json (file : Option PyData) : Store :=
  (loadBody file).getD []

/-- The transform save_data_to_json applies before writing
(reddit_tracker_core.py lines 171-178): migrate when the argument is a
legacy list, then normalise; none models the KeyError from migration. -/
def saveTransform (data : PyData) : Option Store :=
  match data with
  | .legacy items => (migrate_data_format items).map normalize_subreddit_names
  | .store d => some (normalize_subreddit_names d)

/-- State-passing translation of save_data_to_json
(reddit_tracker_core.py lines 162-194). Inputs: the data object the
caller passes, and whether the write at lines 181-182 fails with an I/O
or serialization error. Output: the boolean result, the data object as
the caller sees it after the call, and the contents this call wrote to
the file (none when no complete write happened). The data component is
returned unchanged: lines 175 and 178 rebind a local name, and migrate
and normalise build fresh dicts (lines 123 and 143) instead of mutating
their argument; every exception is caught at line 190 and reported as
False. -/
def save_data_to_json (data : PyData) (ioError : Bool) :
    Bool × PyData × Option PyData :=
  match saveTransform data with
  | none => (false, data, none)
  | some s => if ioError then (false, data, none) else (true, data, some (.store s))

/-- The response body of the about.json request as far as
get_online_users inspects it: a JSON parse failure (JSONDecodeError at
line 62), or an object whose optional data member carries an optional
active_user_count (the membership tests at line 71). -/
inductive Body where
  | parseError
  | obj (dataField : Option (Option Int))
deriving DecidableEq

/-- Outcome of the HTTP GET at reddit_tracker_core.py line 50: a
transport-level failure (ConnectionError, Timeout or another
RequestException), or a response with a status code and a body. -/
inductive FetchResult where
  | transportError
  | response (status : Nat) (body : Body)
deriving DecidableEq

/-- get_online_users (reddit_tracker_core.py lines 46-114) as a function
of the fetch outcome: raise_for_status at line 57 raises HTTPError
exactly when the status lies in the client or server error range 400-599
(statuses outside that range, including 600-999, fall through), every
raised exception is caught by the handlers at lines 84-114 and turned
into None, and the field is returned only when both membership tests at
line 71 pass. -/
def get_online_users (r : FetchResult) : Option Int :=
  match r with
  | .transportError => none
  | .response status body =>
      if 400 ≤ status ∧ status < 600 then none
      else
        match body with
        | .parseError => none
        | .obj none => none
        | .obj (some none) => none
        | .obj (some (some n)) => some n

/-- Initialisation of the collect loop (app.py lines 77-78,
streamlit_app.py lines 67-68): create an empty series for the target
subreddit if the loaded store has none. -/
def pollInit (subreddit : String) (d : Store) : Store :=
  if hasKey d subreddit then d else d ++ [(subreddit, [])]

/-- One tick of the collect loop (app.py lines 89-113, streamlit_app.py
lines 70-96): the fetch outcome paired with the timestamp taken at that
tick; on a value the sample is appended to the target series
(tracking_data[subreddit].append), on None nothing is recorded and the
loop continues. The save call inside the tick does not change the
in-memory store. -/
def pollTick (subreddit : String) (d : Store) (t : Option Int × String) : Store :=
  match t.1 with
  | none => d
  | some n => extendAt d subreddit [⟨t.2, n⟩]

/-- The collect loop run over a finite sequence of ticks, each tick
given by its fetch outcome and its timestamp. -/
def pollRun (subreddit : String) (d : Store) (ticks : List (Option Int × String)) : Store :=
  ticks.foldl (pollTick subreddit) (pollInit subreddit d)

/-! Character and string level facts about the lower-casing model. -/

theorem lowerChar_idem (c : Char) : lowerChar (lowerChar c) = lowerChar c := by
  by_cases h : 65 ≤ c.toNat ∧ c.toNat ≤ 90
  · have hc : lowerChar c = Char.ofNat (c.toNat + 32) := by rw [lowerChar, if_pos h]
    rw [hc]
    obtain ⟨h1, h2⟩ := h
    revert h1 h2
    generalize c.toNat = n
    intro h1 h2
    interval_cases n <;> decide
  · have hc : lowerChar c = c := by rw [lowerChar, if_neg h]
    rw [hc]
    exact hc

theorem lowerChar_comp : lowerChar ∘ lowerChar = lowerChar :=
  funext lowerChar_idem

theorem lowerStr_idem (s : String) : lowerStr (lowerStr s) = lowerStr s := by
  simp [lowerStr, List.map_map, lowerChar_comp]

/-! Association-list facts about the modelled dict operations. -/

theorem hasKey_append (d : Store) (k k' : String) (v : List Sample) :
    hasKey (d ++ [(k, v)]) k' = (hasKey d k' || (k == k')) := by
  induction d with
  | nil => simp [hasKey]
  | cons p rest ih => simp [hasKey, ih, Bool.or_assoc]

theorem hasKey_iff_mem (d : Store) (k : String) :
    hasKey d k = true ↔ k ∈ d.map Prod.fst := by
  induction d with
  | nil => simp [hasKey]
  | cons p rest ih =>
      simp only [hasKey, Bool.or_eq_true, beq_iff_eq, ih, List.map_cons, List.mem_cons]
      constructor
      · rintro (h | h)
        · exact Or.inl h.symm
        · exact Or.inr h
      · rintro (h | h)
        · exact Or.inl h.symm
        · exact Or.inr h

theorem getSeries_append_nil (d : Store) (k k' : String) :
    getSeries (d ++ [(k, [])]) k' = getSeries d k' := by
  induction d with
  | nil => simp [getSeries]
  | cons p rest ih =>
      by_cases h : p.1 = k' <;> simp [getSeries, h, ih]

theorem keys_extendAt (d : Store) (k : String) (pts : List Sample) :
    (extendAt d k pts).map Prod.fst = d.map Prod.fst := by
  induction d with
  | nil => rfl
  | cons p rest ih =>
      by_cases h : p.1 = k <;> simp [extendAt, h, ih]

theorem hasKey_extendAt (d : Store) (k : String) (pts : List Sample) (k' : String) :
    hasKey (extendAt d k pts) k' = hasKey d k' := by
  induction d with
  | nil => rfl
  | cons p rest ih =>
      by_cases h1 : p.1 = k <;> simp [extendAt, hasKey, h1, ih]

theorem getSeries_extendAt_ne (d : Store) (k : String) (pts : List Sample)
    (k' : String) (h : k' ≠ k) :
    getSeries (extendAt d k pts) k' = getSeries d k' := by
  induction d with
  | nil => rfl
  | cons p rest ih =>
      by_cases h1 : p.1 = k
      · have h2 : ¬ p.1 = k' := by rw [h1]; exact fun hc => h hc.symm
        have h3 : ¬ k = k' := fun hc => h hc.symm
        simp [extendAt, getSeries, h1, h2, h3]
      · by_cases h2 : p.1 = k' <;> simp [extendAt, getSeries, h1, h2, h, ih]

theorem getSeries_extendAt_self (d : Store) (k : String) (pts : List Sample)
    (h : hasKey d k = true) :
    getSeries (extendAt d k pts) k = getSeries d k ++ pts := by
  induction d with
  | nil => simp [hasKey] at h
  | cons p rest ih =>
      by_cases h1 : p.1 = k
      · simp [extendAt, getSeries, h1]
      · have h2 : hasKey rest k = true := by
          simpa [hasKey, h1] using h
        simp [extendAt, getSeries, h1, ih h2]

theorem extendAt_append (acc : Store) (k : String) (v pts : List Sample)
    (h : k ∉ acc.map Prod.fst) :
    extendAt (acc ++ [(k, v)]) k pts = acc ++ [(k, v ++ pts)] := by
  induction acc with
  | nil => simp [extendAt]
  | cons q rest ih =>
      have h1 : ¬ q.1 = k := fun hc => h (by simp [hc])
      have h2 : k ∉ rest.map Prod.fst := fun hc => h (by simp [hc])
      simp [extendAt, h1, ih h2]

/-! The create-if-absent-then-extend pattern shared by
normalize_subreddit_names and migrate_data_format. -/

theorem getSeries_ensure_extend (acc : Store) (kk : String) (pts : List Sample)
    (k : String) :
    getSeries (extendAt (if hasKey acc kk then acc else acc ++ [(kk, [])]) kk pts) k
      = getSeries acc k ++ (if kk = k then pts else []) := by
  by_cases hk : kk = k
  · subst hk
    by_cases hh : hasKey acc kk
    · simp [hh, getSeries_extendAt_self acc kk pts hh]
    · have hh2 : hasKey (acc ++ [(kk, [])]) kk = true := by
        simp [hasKey_append]
      simp [hh, getSeries_extendAt_self _ kk pts hh2, getSeries_append_nil]
  · have hne : k ≠ kk := fun hc => hk hc.symm
    by_cases hh : hasKey acc kk
    · simp [hh, getSeries_extendAt_ne _ _ _ _ hne, hk]
    · simp [hh, getSeries_extendAt_ne _ _ _ _ hne, getSeries_append_nil, hk]

theorem keys_ensure_extend (acc : Store) (kk : String) (pts : List Sample) :
    (extendAt (if hasKey acc kk then acc else acc ++ [(kk, [])]) kk pts).map Prod.fst
      = if hasKey acc kk then acc.map Prod.fst else acc.map Prod.fst ++ [kk] := by
  by_cases hh : hasKey acc kk <;> simp [hh, keys_extendAt]

/-! Behaviour of the normalisation fold. -/

theorem getSeries_normStep (acc : Store) (p : String × List Sample) (k : String) :
    getSeries (normStep acc p) k
      = getSeries acc k ++ (if lowerStr p.1 = k then p.2 else []) :=
  getSeries_ensure_extend acc (lowerStr p.1) p.2 k

theorem keys_normStep (acc : Store) (p : String × List Sample) :
    (normStep acc p).map Prod.fst
      = if hasKey acc (lowerStr p.1) then acc.map Prod.fst
        else acc.map Prod.fst ++ [lowerStr p.1] :=
  keys_ensure_extend acc (lowerStr p.1) p.2

theorem getSeries_foldl_normStep (l : List (String × List Sample)) (acc : Store)
    (k : String) :
    getSeries (l.foldl normStep acc) k
      = getSeries acc k
          ++ ((l.filter (fun p => lowerStr p.1 == k)).map Prod.snd).flatten := by
  induction l generalizing acc with
  | nil => simp
  | cons p rest ih =>
      rw [List.foldl_cons, ih, getSeries_normStep]
      by_cases h : lowerStr p.1 = k <;> simp [List.filter_cons, h]

theorem getSeries_normalize (d : Store) (k : String) :
    getSeries (normalize_subreddit_names d) k
      = ((d.filter (fun p => lowerStr p.1 == k)).map Prod.snd).flatten := by
  rw [normalize_subreddit_names, getSeries_foldl_normStep]
  rfl

theorem foldl_normStep_wf (l : List (String × List Sample)) (acc : Store)
    (h1 : ∀ k ∈ acc.map Prod.fst, lowerStr k = k)
    (h2 : (acc.map Prod.fst).Nodup) :
    (∀ k ∈ (l.foldl normStep acc).map Prod.fst, lowerStr k = k)
      ∧ ((l.foldl normStep acc).map Prod.fst).Nodup := by
  induction l generalizing acc with
  | nil => exact ⟨h1, h2⟩
  | cons p rest ih =>
      rw [List.foldl_cons]
      by_cases hh : hasKey acc (lowerStr p.1)
      · refine ih (normStep acc p) ?_ ?_
        · rw [keys_normStep, if_pos hh]; exact h1
        · rw [keys_normStep, if_pos hh]; exact h2
      · refine ih (normStep acc p) ?_ ?_
        · rw [keys_normStep, if_neg hh]
          intro k hk
          rcases List.mem_append.1 hk with hk | hk
          · exact h1 k hk
          · rcases List.mem_singleton.1 hk with rfl
            exact lowerStr_idem p.1
        · rw [keys_normStep, if_neg hh]
          have hnm : lowerStr p.1 ∉ acc.map Prod.fst := by
            intro hc
            exact hh ((hasKey_iff_mem acc (lowerStr p.1)).2 hc)
          simp [List.nodup_append, h2, hnm]

theorem normalize_wf (d : Store) :
    (∀ k ∈ (normalize_subreddit_names d).map Prod.fst, lowerStr k = k)
      ∧ ((normalize_subreddit_names d).map Prod.fst).Nodup := by
  rw [normalize_subreddit_names]
  exact foldl_normStep_wf d [] (by simp) (by simp)

theorem foldl_normStep_id (l : List (String × List Sample)) (acc : Store)
    (hlow : ∀ k ∈ acc.map Prod.fst ++ l.map Prod.fst, lowerStr k = k)
    (hnd : (acc.map Prod.fst ++ l.map Prod.fst).Nodup) :
    l.foldl normStep acc = acc ++ l := by
  induction l generalizing acc with
  | nil => simp
  | cons p rest ih =>
      have hp : lowerStr p.1 = p.1 := hlow p.1 (by simp)
      have hnotin : p.1 ∉ acc.map Prod.fst := by
        rw [List.nodup_append] at hnd
        intro hc
        exact hnd.2.2 hc (by simp)
      have hkey : hasKey acc p.1 = false := by
        cases hb : hasKey acc p.1
        · rfl
        · exact absurd ((hasKey_iff_mem acc p.1).1 hb) hnotin
      have hstep : normStep acc p = acc ++ [p] := by
        rw [normStep]
        simp only [hp, hkey, Bool.false_eq_true, if_false]
        rw [extendAt_append acc p.1 [] p.2 hnotin]
        simp
      rw [List.foldl_cons, hstep, ih (acc ++ [p]) ?_ ?_]
      · simp
      · intro k hk
        refine hlow k ?_
        simpa using hk
      · simpa using hnd

theorem normalize_fixed (d : Store)
    (h1 : ∀ k ∈ d.map Prod.fst, lowerStr k = k)
    (h2 : (d.map Prod.fst).Nodup) :
    normalize_subreddit_names d = d := by
  rw [normalize_subreddit_names]
  have := foldl_normStep_id d [] (by simpa using h1) (by simpa using h2)
  simpa using this

theorem normalize_idem (d : Store) :
    normalize_subreddit_names (normalize_subreddit_names d)
      = normalize_subreddit_names d :=
  normalize_fixed (normalize_subreddit_names d) (normalize_wf d).1 (normalize_wf d).2

/-! Behaviour of the migration fold. -/

/-- A legacy record whose timestamp and online_users fields are present,
given as the triple of subreddit field (possibly absent), timestamp and
online_users. -/
abbrev RawRecord := Option String × String × Int

/-- View of a complete raw record as a LegacyRecord. -/
def toLegacy (i : RawRecord) : LegacyRecord :=
  ⟨i.1, some i.2.1, some i.2.2⟩

/-- The migration step on a record whose indexed fields are present:
no KeyError can occur. -/
def migStepPure (acc : Store) (i : RawRecord) : Store :=
  let sub := lowerStr (i.1.getD "unknown")
  let acc' := if hasKey acc sub then acc else acc ++ [(sub, [])]
  extendAt acc' sub [⟨i.2.1, i.2.2⟩]

theorem migStep_toLegacy (acc : Store) (i : RawRecord) :
    migStep acc (toLegacy i) = some (migStepPure acc i) :=
  rfl

theorem migrate_map_toLegacy (items : List RawRecord) (acc : Store) :
    List.foldlM migStep acc (items.map toLegacy)
      = some (items.foldl migStepPure acc) := by
  induction items generalizing acc with
  | nil => rfl
  | cons i rest ih =>
      rw [List.map_cons, List.foldlM_cons, migStep_toLegacy]
      exact ih (migStepPure acc i)

theorem getSeries_migStepPure (acc : Store) (i : RawRecord) (k : String) :
    getSeries (migStepPure acc i) k
      = getSeries acc k
          ++ (if lowerStr (i.1.getD "unknown") = k then [⟨i.2.1, i.2.2⟩] else []) :=
  getSeries_ensure_extend acc (lowerStr (i.1.getD "unknown")) [⟨i.2.1, i.2.2⟩] k

theorem getSeries_foldl_migStepPure (items : List RawRecord) (acc : Store)
    (k : String) :
    getSeries (items.foldl migStepPure acc) k
      = getSeries acc k
          ++ items.filterMap (fun i =>
              if lowerStr (i.1.getD "unknown") = k
              then some ⟨i.2.1, i.2.2⟩ else none) := by
  induction items generalizing acc with
  | nil => simp
  | cons i rest ih =>
      rw [List.foldl_cons, ih, getSeries_migStepPure]
      by_cases h : lowerStr (i.1.getD "unknown") = k <;>
        simp [List.filterMap_cons, h]

theorem migrate_raw (items : List RawRecord) :
    migrate_data_format (items.map toLegacy)
      = some (items.foldl migStepPure []) :=
  migrate_map_toLegacy items []

/-- Missing timestamp or online_users anywhere in the legacy list makes
migrate_data_format raise (return none). -/
theorem migrate_fails_of_missing_field (items : List LegacyRecord)
    (h : ∃ r ∈ items, r.timestamp = none ∨ r.online_users = none) :
    migrate_data_format items = none := by
  rw [migrate_data_format]
  suffices hgen : ∀ acc : Store, List.foldlM migStep acc items = none by
    exact hgen []
  induction items with
  | nil => simp at h
  | cons r rest ih =>
      intro acc
      rcases h with ⟨r0, hr0, hfield⟩
      rcases List.mem_cons.1 hr0 with rfl | hmem
      · have hstep : migStep acc r0 = none := by
          rw [migStep]
          rcases hfield with hf | hf
          · rw [hf]
          · rw [hf]
            cases r0.timestamp <;> rfl
        rw [List.foldlM_cons, hstep]
        rfl
      · rw [List.foldlM_cons]
        cases hstep : migStep acc r
        · rfl
        · exact ih ⟨r0, hmem, hfield⟩ _

/-! Behaviour of the poll loop. -/

theorem getSeries_pollInit (subreddit : String) (d : Store) :
    getSeries (pollInit subreddit d) subreddit = getSeries d subreddit := by
  rw [pollInit]
  by_cases h : hasKey d subreddit <;> simp [h, getSeries_append_nil]

theorem hasKey_pollInit (subreddit : String) (d : Store) :
    hasKey (pollInit subreddit d) subreddit = true := by
  rw [pollInit]
  by_cases h : hasKey d subreddit <;> simp [h, hasKey_append]

theorem getSeries_foldl_pollTick (subreddit : String)
    (ticks : List (Option Int × String)) (d : Store)
    (h : hasKey d subreddit = true) :
    getSeries (ticks.foldl (pollTick subreddit) d) subreddit
      = getSeries d subreddit
          ++ ticks.filterMap (fun t => t.1.map (fun n => ⟨t.2, n⟩)) := by
  induction ticks generalizing d with
  | nil => simp
  | cons t rest ih =>
      rw [List.foldl_cons]
      cases ht : t.1 with
      | none =>
          rw [show pollTick subreddit d t = d by rw [pollTick, ht], ih d h]
          simp [List.filterMap_cons, ht]
      | some n =>
          have hstep : pollTick subreddit d t = extendAt d subreddit [⟨t.2, n⟩] := by
            rw [pollTick, ht]
          rw [hstep, ih _ (by rw [hasKey_extendAt]; exact h)]
          rw [getSeries_extendAt_self d subreddit _ h]
          simp [List.filterMap_cons, ht]

theorem getSeries_pollRun (subreddit : String) (d : Store)
    (ticks : List (Option Int × String)) :
    getSeries (pollRun subreddit d ticks) subreddit
      = getSeries d subreddit
          ++ ticks.filterMap (fun t => t.1.map (fun n => ⟨t.2, n⟩)) := by
  rw [pollRun,
    getSeries_foldl_pollTick subreddit ticks _ (hasKey_pollInit subreddit d),
    getSeries_pollInit]

/-! Claim theorems. -/

/-- C1: for every Store S, saving S with save_data_to_json and loading
the written file with load_data_from_json returns a Store equal to
normalize_subreddit_names S: the persistence round trip equals one
application of normalisation. -/
theorem load_save_roundtrip (S : Store) :
    load_data_from_json (save_data_to_json (.store S) false).2.2
      = normalize_subreddit_names S := by
  have h1 : (save_data_to_json (.store S) false).2.2
      = some (.store (normalize_subreddit_names S)) := rfl
  rw [h1]
  have h2 : load_data_from_json (some (.store (normalize_subreddit_names S)))
      = normalize_subreddit_names (normalize_subreddit_names S) := rfl
  rw [h2, normalize_idem]

/-- C2: normalize_subreddit_names is idempotent, and on a Store whose
keys are already all lower case and pairwise distinct after lower-casing
it returns an equal Store. -/
theorem normalize_idempotent :
    (∀ S : Store,
        normalize_subreddit_names (normalize_subreddit_names S)
          = normalize_subreddit_names S)
    ∧ ∀ S : Store, (∀ k ∈ S.map Prod.fst, lowerStr k = k) →
        ((S.map Prod.fst).map lowerStr).Nodup →
        normalize_subreddit_names S = S := by
  refine ⟨normalize_idem, ?_⟩
  intro S h1 h2
  refine normalize_fixed S h1 ?_
  have h3 : (S.map Prod.fst).map lowerStr = S.map Prod.fst := by
    rw [List.map_congr_left h1]
    simp
  rwa [h3] at h2

/-- Witness for C2: a concrete already-normalised Store is returned
unchanged. -/
theorem normalize_idempotent_witness :
    normalize_subreddit_names [("bar", [⟨"t1", 3⟩])] = [("bar", [⟨"t1", 3⟩])] :=
  normalize_idempotent.2 [("bar", [⟨"t1", 3⟩])] (by decide) (by decide)

/-- C3: migrate_data_format groups legacy records under their
lower-cased subreddit field, drops the per-record subreddit field and
keeps encounter order inside each group; the example from the spec is
computed exactly. -/
theorem migrate_groups_by_lowered_subreddit :
    (∀ items : List (String × String × Int),
        ∃ m, migrate_data_format
              (items.map (fun i => toLegacy (some i.1, i.2))) = some m
          ∧ ∀ k, getSeries m k
              = items.filterMap (fun i =>
                  if lowerStr i.1 = k then some ⟨i.2.1, i.2.2⟩ else none))
    ∧ migrate_data_format
        [⟨some "Foo", some "t1", some 5⟩, ⟨some "foo", some "t2", some 7⟩]
      = some [("foo", [⟨"t1", 5⟩, ⟨"t2", 7⟩])] := by
  constructor
  · intro items
    refine ⟨(items.map (fun i => ((some i.1 : Option String), i.2))).foldl
      migStepPure [], ?_, ?_⟩
    · have h : items.map (fun i => toLegacy (some i.1, i.2))
          = (items.map (fun i => ((some i.1 : Option String), i.2))).map toLegacy := by
        simp [List.map_map]
      rw [h, migrate_raw]
    · intro k
      rw [getSeries_foldl_migStepPure, List.filterMap_map]
      rfl
  · decide

/-- Counterexample to C4 as stated: a legacy file whose single record
lacks the timestamp field makes the try body of load_data_from_json
raise (loadBody is none), but the except handler absorbs the error and
load_data_from_json returns the empty Store instead of surfacing an
unrecovered error. -/
theorem load_absorbs_migration_failure_cex :
    loadBody (some (.legacy [⟨some "foo", none, some 5⟩])) = none
      ∧ load_data_from_json (some (.legacy [⟨some "foo", none, some 5⟩])) = [] := by
  decide

/-- C4 amended: for every legacy file in which some record is missing
timestamp or online_users, the coercion failure is caught by the except
handler of load_data_from_json, which returns the empty Store (the
error is logged and absorbed, not surfaced to the caller). -/
theorem load_returns_empty_on_bad_legacy (items : List LegacyRecord)
    (h : ∃ r ∈ items, r.timestamp = none ∨ r.online_users = none) :
    load_data_from_json (some (.legacy items)) = [] := by
  have hb : loadBody (some (.legacy items))
      = (migrate_data_format items).map normalize_subreddit_names := rfl
  rw [load_data_from_json, hb, migrate_fails_of_missing_field items h]
  rfl

/-- Witness for C4 amended: the concrete bad legacy file loads as the
empty Store. -/
theorem load_returns_empty_on_bad_legacy_witness :
    load_data_from_json (some (.legacy [⟨some "foo", none, some 5⟩])) = [] :=
  load_returns_empty_on_bad_legacy [⟨some "foo", none, some 5⟩] (by decide)

/-- Counterexample to C5 as stated: status 999 lies outside the success
range (it is at least 400), yet raise_for_status raises only for
statuses 400-599, so the program parses the body and returns the field
value instead of the claimed absent. -/
theorem fetch_status_999_returns_count_cex :
    400 ≤ 999
      ∧ get_online_users (.response 999 (.obj (some (some 42)))) = some 42 := by
  decide

/-- C5 amended: get_online_users returns none without raising on
transport failure, on an HTTP status in the client or server error range
400-599 (the exact range for which raise_for_status raises HTTPError),
on an unparseable body, on a body without the data member, and on a data
member without active_user_count; whenever raise_for_status does not
raise (status below 400 or above 599) and the body carries
data.active_user_count equal to n, it returns n. -/
theorem fetch_failure_classification :
    get_online_users .transportError = none
    ∧ (∀ (status : Nat) (body : Body), 400 ≤ status → status < 600 →
        get_online_users (.response status body) = none)
    ∧ (∀ status : Nat, ¬(400 ≤ status ∧ status < 600) →
        get_online_users (.response status .parseError) = none)
    ∧ (∀ status : Nat, ¬(400 ≤ status ∧ status < 600) →
        get_online_users (.response status (.obj none)) = none)
    ∧ (∀ status : Nat, ¬(400 ≤ status ∧ status < 600) →
        get_online_users (.response status (.obj (some none))) = none)
    ∧ (∀ (status : Nat) (n : Int), ¬(400 ≤ status ∧ status < 600) →
        get_online_users (.response status (.obj (some (some n)))) = some n) := by
  refine ⟨rfl, ?_, ?_, ?_, ?_, ?_⟩
  · intro st b h1 h2
    simp [get_online_users, h1, h2]
  · intro st h
    simp [get_online_users, h]
  · intro st h
    simp [get_online_users, h]
  · intro st h
    simp [get_online_users, h]
  · intro st n h
    simp [get_online_users, h]

/-- Witness for C5 amended: the spec examples, 404 with a well-formed
body gives none, 200 with the expected field gives 42, 200 without it
gives none, and a 999 status with the field gives the field value. -/
theorem fetch_failure_classification_witness :
    get_online_users (.response 404 (.obj (some (some 42)))) = none
    ∧ get_online_users (.response 200 .parseError) = none
    ∧ get_online_users (.response 200 (.obj none)) = none
    ∧ get_online_users (.response 200 (.obj (some none))) = none
    ∧ get_online_users (.response 200 (.obj (some (some 42)))) = some 42
    ∧ get_online_users (.response 999 (.obj (some (some 7)))) = some 7 :=
  ⟨fetch_failure_classification.2.1 404 (.obj (some (some 42))) (by decide) (by decide),
   fetch_failure_classification.2.2.1 200 (by decide),
   fetch_failure_classification.2.2.2.1 200 (by decide),
   fetch_failure_classification.2.2.2.2.1 200 (by decide),
   fetch_failure_classification.2.2.2.2.2 200 42 (by decide),
   fetch_failure_classification.2.2.2.2.2 999 7 (by decide)⟩

/-- C6: a poll-loop run appends to the target series exactly the
non-absent fetch results, as samples in fetch order; an absent result
records nothing and does not end the run. The spec instance with
outcomes 10, absent, 12 appends exactly the two samples 10 then 12. -/
theorem poll_appends_exactly_fetched_values :
    (∀ (subreddit : String) (d : Store) (ticks : List (Option Int × String)),
        getSeries (pollRun subreddit d ticks) subreddit
          = getSeries d subreddit
              ++ ticks.filterMap (fun t => t.1.map (fun n => ⟨t.2, n⟩)))
    ∧ getSeries (pollRun "target" []
          [(some 10, "t1"), (none, "t2"), (some 12, "t3")]) "target"
        = [⟨"t1", 10⟩, ⟨"t3", 12⟩] := by
  refine ⟨getSeries_pollRun, ?_⟩
  decide

/-- C7: on an I/O or serialization error, save_data_to_json reports
False instead of raising, and the data object the caller passed is
unchanged after the call, so a later save can retry with the same
data. -/
theorem save_failure_reports_false_preserves_data (S : Store) :
    save_data_to_json (.store S) true = (false, .store S, none) :=
  rfl

/-- C8: every Store returned by load_data_from_json has all keys lower
case and pairwise distinct, and normalisation merges colliding keys by
concatenating their series in encounter order of the source entries. -/
theorem load_store_invariant :
    (∀ file : Option PyData,
        (∀ k ∈ (load_data_from_json file).map Prod.fst, lowerStr k = k)
          ∧ ((load_data_from_json file).map Prod.fst).Nodup)
    ∧ ∀ (d : Store) (k : String),
        getSeries (normalize_subreddit_names d) k
          = ((d.filter (fun p => lowerStr p.1 == k)).map Prod.snd).flatten := by
  constructor
  · intro file
    cases file with
    | none => simp [load_data_from_json, loadBody]
    | some pd =>
        cases pd with
        | store d =>
            have h : load_data_from_json (some (.store d))
                = normalize_subreddit_names d := rfl
            rw [h]
            exact normalize_wf d
        | legacy items =>
            have hb : loadBody (some (.legacy items))
                = (migrate_data_format items).map normalize_subreddit_names := rfl
            cases hm : migrate_data_format items with
            | none =>
                have h : load_data_from_json (some (.legacy items)) = [] := by
                  rw [load_data_from_json, hb, hm]
                  rfl
                rw [h]
                simp
            | some m =>
                have h : load_data_from_json (some (.legacy items))
                    = normalize_subreddit_names m := by
                  rw [load_data_from_json, hb, hm]
                  rfl
                rw [h]
                exact normalize_wf m
  · exact getSeries_normalize

/-- Witness for C8: a concrete loaded Store has its key in lower case. -/
theorem load_store_invariant_witness : lowerStr "foo" = "foo" :=
  (load_store_invariant.1 (some (.store [("FOO", [])]))).1 "foo" (by decide)

/-- C9: when no persisted file exists, load_data_from_json returns the
empty Store. -/
theorem load_missing_file_empty : load_data_from_json none = [] :=
  rfl

/-- C10: migrate_data_format does not fail on a record lacking the
subreddit field: such a record is grouped under the key unknown, and in
general the unknown series collects exactly the records whose
subreddit field defaults or lower-cases to unknown, in order. -/
theorem migrate_missing_subreddit_unknown :
    ∀ items : List RawRecord,
      ∃ m, migrate_data_format (items.map toLegacy) = some m
        ∧ getSeries m "unknown"
            = items.filterMap (fun i =>
                if lowerStr (i.1.getD "unknown") = "unknown"
                then some ⟨i.2.1, i.2.2⟩ else none)
        ∧ ∀ i ∈ items, i.1 = none →
            (⟨i.2.1, i.2.2⟩ : Sample) ∈ getSeries m "unknown" := by
  intro items
  refine ⟨items.foldl migStepPure [], migrate_raw items, ?_, ?_⟩
  · rw [getSeries_foldl_migStepPure]
    rfl
  · intro i hi hnone
    rw [getSeries_foldl_migStepPure]
    refine List.mem_append.2 (Or.inr ?_)
    refine List.mem_filterMap.2 ⟨i, hi, ?_⟩
    rw [hnone]
    simp [show lowerStr "unknown" = "unknown" from by decide]

/-- Witness for C10: a concrete record without a subreddit field lands
in the unknown series. -/
theorem migrate_missing_subreddit_unknown_witness :
    (⟨"t1", 5⟩ : Sample) ∈
      getSeries ((migrate_data_format
        ([((none : Option String), ("t1", (5 : Int)))].map toLegacy)).getD [])
        "unknown" := by
  obtain ⟨m, hm, hser, hmem⟩ :=
    migrate_missing_subreddit_unknown [(none, "t1", 5)]
  rw [hm]
  exact hmem (none, "t1", 5) (by decide) rfl

end RedditTracker
